import Mathlib

/-!
Shallow embedding of the scope algebra, token model, client-secret override
and client construction of the `google-oauth` repository (Rust), with
theorems settling the behavioural claims about it.

Source files embedded: `src/scope.rs`, `src/client.rs`,
`src/client/calendar.rs`, `src/secret.rs`.
-/

namespace GoogleOAuth

/-- The fixed scope catalog of `src/scope.rs` (the `scope!` macro invocation):
`calendar`, `calendar.readonly`, `calendar.events`, `calendar.events.readonly`,
`calendar.settings.readonly`, `calendar.addons.execute`. Each marker type of
the Rust source is one constructor; `DynSingleScope` values are in bijection
with these markers. -/
inductive SingleScopeId where
  | calendar
  | calendarReadonly
  | calendarEvents
  | calendarEventsReadonly
  | calendarSettingsReadonly
  | calendarAddonsExecute
deriving DecidableEq, Repr

/-- `SingleScope::as_str` / the `STR` constant of each marker type:
`concat!("https://www.googleapis.com/auth/", ...)`. -/
def SingleScopeId.asStr : SingleScopeId → String
  | .calendar => "https://www.googleapis.com/auth/calendar"
  | .calendarReadonly => "https://www.googleapis.com/auth/calendar.readonly"
  | .calendarEvents => "https://www.googleapis.com/auth/calendar.events"
  | .calendarEventsReadonly => "https://www.googleapis.com/auth/calendar.events.readonly"
  | .calendarSettingsReadonly => "https://www.googleapis.com/auth/calendar.settings.readonly"
  | .calendarAddonsExecute => "https://www.googleapis.com/auth/calendar.addons.execute"

/-- `ALL_SCOPE_MAP.get(s)` (a `HashMap` keyed by the six `STR` constants,
built from `ALL_SCOPE_PAIRS`): returns the marker whose canonical URI string
equals `s`, if any. -/
def catalogLookup (s : String) : Option SingleScopeId :=
  if s = SingleScopeId.calendar.asStr then some .calendar
  else if s = SingleScopeId.calendarReadonly.asStr then some .calendarReadonly
  else if s = SingleScopeId.calendarEvents.asStr then some .calendarEvents
  else if s = SingleScopeId.calendarEventsReadonly.asStr then some .calendarEventsReadonly
  else if s = SingleScopeId.calendarSettingsReadonly.asStr then some .calendarSettingsReadonly
  else if s = SingleScopeId.calendarAddonsExecute.asStr then some .calendarAddonsExecute
  else none

/-- `DynSingleScope::from_str` (src/scope.rs lines 82-91): look the token up in
`ALL_SCOPE_MAP`; on a miss the error is the constant string
`"no matching scope found"`. -/
def dynSingleScopeFromStr (s : String) : Except String SingleScopeId :=
  match catalogLookup s with
  | some sc => .ok sc
  | none => .error "no matching scope found"

/-- Rust `str::split(' ')` on the character list of a string: splits at every
space; the empty string yields one empty segment, `n` spaces yield `n + 1`
segments. -/
def splitSp : List Char → List (List Char)
  | [] => [[]]
  | c :: cs =>
    if c = ' ' then [] :: splitSp cs
    else
      match splitSp cs with
      | [] => [[c]]
      | t :: ts => (c :: t) :: ts

/-- `collect::<Result<Vec<DynSingleScope>, _>>()` over the parsed tokens:
stops at the first token whose parse fails and returns that error, otherwise
the list of parsed scopes in order. -/
def collectScopes : List (List Char) → Except String (List SingleScopeId)
  | [] => .ok []
  | t :: ts =>
    match dynSingleScopeFromStr (String.mk t) with
    | .error e => .error e
    | .ok sc =>
      match collectScopes ts with
      | .error e => .error e
      | .ok l => .ok (sc :: l)

/-- `SpaceDelimitedScope::from_str` (src/scope.rs lines 205-216): split the
input on `' '`, parse every token with `DynSingleScope::from_str`, collect
into a `Vec` failing at the first error (mapped through `to_string`, the
identity on the `&'static str` message here). -/
def spaceDelimitedFromStr (s : String) : Except String (List SingleScopeId) :=
  collectScopes (splitSp s.data)

/-- Whether a parse succeeded. -/
def exceptOk : Except String (List SingleScopeId) → Bool
  | .ok _ => true
  | .error _ => false

instance {ε α : Type} [DecidableEq ε] [DecidableEq α] : DecidableEq (Except ε α) :=
  fun x y =>
    match x, y with
    | .ok a, .ok b =>
      if h : a = b then isTrue (by rw [h])
      else isFalse (fun he => by cases he; exact h rfl)
    | .error a, .error b =>
      if h : a = b then isTrue (by rw [h])
      else isFalse (fun he => by cases he; exact h rfl)
    | .ok _, .error _ => isFalse (fun he => by cases he)
    | .error _, .ok _ => isFalse (fun he => by cases he)

/-- `impl fmt::Display for SpaceDelimitedScope` (src/scope.rs lines 218-229):
writes the first element, then `" {s}"` for every further element; the empty
vector prints as the empty string. -/
def spaceDelimitedToString : List SingleScopeId → String
  | [] => ""
  | f :: t => t.foldl (fun acc sc => acc ++ " " ++ sc.asStr) f.asStr

/-- The closed family of `Scope` implementations of `src/scope.rs`:
`NoScope`, a single scope (marker type or `DynSingleScope`),
`SpaceDelimitedScope` (a `Vec` of single scopes), `With<A, B>`
(the result of `Scope::with`, i.e. scope union) and `BoxScope`. -/
inductive ScopeVal where
  | noScope
  | dynSingle (s : SingleScopeId)
  | spaceDelimited (l : List SingleScopeId)
  | withScope (a b : ScopeVal)
  | boxed (a : ScopeVal)

/-- `Scope::scope` of each implementation: the `HashSet<DynSingleScope>` a
value represents. `NoScope` gives the empty set, single scopes a singleton,
`SpaceDelimitedScope` the set of its vector's elements, `With(a, b)` extends
`a.scope()` with `b.scope()` (set union), `BoxScope` delegates. -/
def scopeOf : ScopeVal → Finset SingleScopeId
  | .noScope => ∅
  | .dynSingle s => {s}
  | .spaceDelimited l => l.toFinset
  | .withScope a b => scopeOf a ∪ scopeOf b
  | .boxed a => scopeOf a

/-- `Scope::space_delimited` of each implementation, as the underlying
`Vec<DynSingleScope>`: single scopes give a one-element vector,
`SpaceDelimitedScope` clones itself, and `With(a, b)` appends
`b.space_delimited()` onto `a.space_delimited()` (src/scope.rs lines
335-341) with no deduplication; `BoxScope` delegates. -/
def spaceDelimitedOf : ScopeVal → List SingleScopeId
  | .noScope => []
  | .dynSingle s => [s]
  | .spaceDelimited l => l
  | .withScope a b => spaceDelimitedOf a ++ spaceDelimitedOf b
  | .boxed a => spaceDelimitedOf a

/-- `Token` (src/client.rs lines 379-387): the decoded token response.
`token_type` is the zero-sized `Bearer` marker (always the literal
`"Bearer"`), modelled as `Unit`. `expires_in` is a `u32`; no arithmetic is
performed on it, so it is carried as a plain `Nat`. -/
structure Token where
  access_token : String
  expires_in : Nat
  refresh_token : Option String
  scope : List SingleScopeId
  token_type : Unit
deriving DecidableEq

/-- Modelled from the spec: the repository's sources under `src/` declare the
`Token` record but contain no `refresh()` implementation; the refresh merge
rule exists only in the specification (section 3, Token): "when a refresh
response lacks a `refresh_token`, the new Token must inherit the previous
Token's `refresh_token` (the provider is not required to re-issue it); every
other field is replaced by the refresh response". -/
def refreshMerge (old resp : Token) : Token :=
  { access_token := resp.access_token
    expires_in := resp.expires_in
    refresh_token :=
      match resp.refresh_token with
      | some r => some r
      | none => old.refresh_token
    scope := resp.scope
    token_type := resp.token_type }

/-- `InsufficientScopeError` (src/client.rs lines 447-455): a unit error
value, "insufficient scope to perform request". -/
structure InsufficientScopeError where
deriving DecidableEq

/-- `ParameterMinAccessRole` (src/client/calendar.rs lines 290-297). -/
inductive ParameterMinAccessRole where
  | freeBusyReader
  | owner
  | reader
  | writer
deriving DecidableEq

/-- `calendar_list::list::Parameters` (src/client/calendar.rs lines 197-205). -/
structure ListParameters where
  max_results : Option Nat
  min_access_role : Option ParameterMinAccessRole
  page_token : Option String
  show_deleted : Bool
  show_hidden : Bool
  sync_token : Option String
deriving DecidableEq

/-- `Parameters::new` = `Parameters::default()`: every optional parameter
unset, both booleans false. -/
def ListParameters.new : ListParameters :=
  { max_results := none
    min_access_role := none
    page_token := none
    show_deleted := false
    show_hidden := false
    sync_token := none }

/-- `calendar_list::list::Request::new`: a request builder over the client,
carrying default parameters. -/
structure ListRequest where
  parameters : ListParameters
deriving DecidableEq

/-- `calendar_list::Client::list` (src/client/calendar.rs lines 82-87), as a
function of the current token's granted scope vector: the gate
`contain_scope!([calendar, calendar.readonly] in &self.token().scope)`
expands to
`scope.contains(Calendar.as_dyn()) && scope.contains(CalendarReadonly.as_dyn())`
over `Scope::scope(&token.scope)`; when that conjunction fails the function
returns `Err(InsufficientScopeError)`, otherwise `Ok(Request::new(..))`.
This is a pure check on the token already held: no request is sent. -/
def calendarListList (tokenScope : List SingleScopeId) :
    Except InsufficientScopeError ListRequest :=
  if SingleScopeId.calendar ∈ scopeOf (.spaceDelimited tokenScope) ∧
      SingleScopeId.calendarReadonly ∈ scopeOf (.spaceDelimited tokenScope) then
    .ok { parameters := ListParameters.new }
  else
    .error {}

/-- `WebClientSecret` (src/secret.rs lines 8-16). -/
structure WebClientSecret where
  client_id : String
  project_id : String
  auth_uri : String
  token_uri : String
  auth_provider_x509_cert_url : String
  client_secret : String
deriving DecidableEq

/-- The environment-variable name used by `WebClientSecret::override_from_env`
for a field: `OVERRIDE_FIELD` without an infix, `OVERRIDE_{ifx}_FIELD` with
one (src/secret.rs lines 43-65, `field` already upper-snake-cased). -/
def envVarName (ifx : Option String) (field : String) : String :=
  match ifx with
  | none => "OVERRIDE_" ++ field
  | some i => "OVERRIDE_" ++ i ++ "_" ++ field

/-- `WebClientSecret::override_from_env` (src/secret.rs lines 42-107): for
each of the six fields, `std::env::var(key).unwrap_or(original)` — the
process environment is modelled as a partial map `env`; a variable that is
present (`some v`, even when `v` is empty) replaces the field, an absent one
keeps the original. -/
def overrideFromEnv (env : String → Option String) (ifx : Option String)
    (w : WebClientSecret) : WebClientSecret :=
  { client_id := (env (envVarName ifx "CLIENT_ID")).getD w.client_id
    project_id := (env (envVarName ifx "PROJECT_ID")).getD w.project_id
    auth_uri := (env (envVarName ifx "AUTH_URI")).getD w.auth_uri
    token_uri := (env (envVarName ifx "TOKEN_URI")).getD w.token_uri
    auth_provider_x509_cert_url :=
      (env (envVarName ifx "AUTH_PROVIDER_X509_CERT_URL")).getD
        w.auth_provider_x509_cert_url
    client_secret := (env (envVarName ifx "CLIENT_SECRET")).getD w.client_secret }

/-- ASCII alphanumeric test: the complement of `percent_encoding`'s
`NON_ALPHANUMERIC` set, i.e. exactly `[0-9A-Za-z]`. -/
def isAsciiAlphanum (c : Char) : Bool :=
  (48 ≤ c.toNat && c.toNat ≤ 57) ||
  (65 ≤ c.toNat && c.toNat ≤ 90) ||
  (97 ≤ c.toNat && c.toNat ≤ 122)

/-- The UTF-8 byte sequence of a code point (as `Nat`s < 256):
`utf8_percent_encode` iterates over the bytes of the `str`. -/
def utf8BytesOf (c : Char) : List Nat :=
  let n := c.toNat
  if n < 128 then [n]
  else if n < 2048 then [192 + n / 64, 128 + n % 64]
  else if n < 65536 then [224 + n / 4096, 128 + (n / 64) % 64, 128 + n % 64]
  else [240 + n / 262144, 128 + (n / 4096) % 64, 128 + (n / 64) % 64, 128 + n % 64]

/-- Uppercase hexadecimal digit of a value below 16, as used by the
`percent_encoding` crate (`b"0123456789ABCDEF"`). -/
def hexDigitU (n : Nat) : Char :=
  if n < 10 then Char.ofNat (48 + n) else Char.ofNat (55 + n)

/-- One percent-escaped byte: `%` followed by two uppercase hex digits. -/
def escByte (b : Nat) : List Char := ['%', hexDigitU (b / 16), hexDigitU (b % 16)]

/-- `utf8_percent_encode(s, NON_ALPHANUMERIC).to_string()`: every ASCII
alphanumeric character is kept, every other character has each of its UTF-8
bytes percent-escaped. -/
def percentEncodeNA (s : String) : String :=
  String.mk ((s.data.map (fun c =>
    if isAsciiAlphanum c then [c] else (utf8BytesOf c).map escByte |>.flatten)).flatten)

/-- `ClientConfig` (src/client.rs lines 10-14): redirect target plus the
requested scope, already flattened to a `SpaceDelimitedScope`. -/
structure ClientConfig where
  redirect_uri : String
  scope : List SingleScopeId

/-- `UnauthorizedClient::generate_url` (src/client.rs lines 36-63): encodes
`client_id`, `redirect_uri` and the scope's `Display` string with
`NON_ALPHANUMERIC` percent-encoding, joins the five query items with `&` and
prepends `{auth_uri}?`. A pure string construction. -/
def generateUrl (secret : WebClientSecret) (config : ClientConfig) : String :=
  let cid := percentEncodeNA secret.client_id
  let ruri := percentEncodeNA config.redirect_uri
  let sc := percentEncodeNA (spaceDelimitedToString config.scope)
  secret.auth_uri ++ "?" ++
    ("client_id=" ++ cid ++ "&" ++
     "redirect_uri=" ++ ruri ++ "&" ++
     "scope=" ++ sc ++ "&" ++
     "response_type=code" ++ "&" ++
     "access_type=offline")

/-- `pat` occurs at the head of `hay`. -/
def listStartsWith : List Char → List Char → Bool
  | _, [] => true
  | [], _ :: _ => false
  | h :: hs, p :: ps => h == p && listStartsWith hs ps

/-- `pat` occurs somewhere inside `hay` (substring containment). -/
def listHasSub (hay pat : List Char) : Bool :=
  listStartsWith hay pat ||
    match hay with
    | [] => false
    | _ :: t => listHasSub t pat

/-- Substring containment on strings. -/
def strHasSub (hay pat : String) : Bool := listHasSub hay.data pat.data

/-- Space-separated concatenation of the tail segments of a wire string:
each segment is preceded by one `' '`. Used to describe `Display` output. -/
def sepJoin : List (List Char) → List Char
  | [] => []
  | t :: ts => (' ' :: t) ++ sepJoin ts

/-- A concrete previous token holding a refresh token (`"R1"`). -/
def oldTok : Token :=
  { access_token := "oldAccess"
    expires_in := 100
    refresh_token := some "R1"
    scope := [.calendar]
    token_type := () }

/-- A concrete refresh response lacking a `refresh_token` field. -/
def respTok : Token :=
  { access_token := "newAccess"
    expires_in := 3600
    refresh_token := none
    scope := [.calendarReadonly]
    token_type := () }

/-- The concrete client secret of the URL-generation example:
`client_id = "a b"`, the other fields arbitrary fixed strings. -/
def exSecretC4 : WebClientSecret :=
  { client_id := "a b"
    project_id := "proj"
    auth_uri := "https://oauth.example/auth"
    token_uri := "https://oauth.example/token"
    auth_provider_x509_cert_url := "certs"
    client_secret := "sek" }

/-- The concrete client config of the URL-generation example:
`redirect_uri = "http://localhost:8080/cb"`, scope `{calendar}`. -/
def exConfigC4 : ClientConfig :=
  { redirect_uri := "http://localhost:8080/cb"
    scope := [.calendar] }

/-- A concrete client secret document with distinctive original values. -/
def exSecretC5 : WebClientSecret :=
  { client_id := "orig_id"
    project_id := "orig_project"
    auth_uri := "orig_auth"
    token_uri := "orig_token"
    auth_provider_x509_cert_url := "orig_cert"
    client_secret := "orig_secret" }

/-- An environment in which `OVERRIDE_CLIENT_ID` is present but empty and
every other variable is absent. -/
def envEmptyC5 : String → Option String :=
  fun k => if k = "OVERRIDE_CLIENT_ID" then some "" else none

/-- An environment in which only `OVERRIDE_CLIENT_ID` is set (to `"xyz"`). -/
def envXyzC5 : String → Option String :=
  fun k => if k = "OVERRIDE_CLIENT_ID" then some "xyz" else none

/-- Every catalog URI is nonempty and contains no space character. -/
theorem asStr_nonempty_nospace (sc : SingleScopeId) :
    sc.asStr.data ≠ [] ∧ ∀ c ∈ sc.asStr.data, c ≠ ' ' := by
  cases sc <;> exact ⟨by decide, by decide⟩

/-- Looking a catalog URI back up in the scope map recovers its scope. -/
theorem catalogLookup_asStr (sc : SingleScopeId) :
    catalogLookup sc.asStr = some sc := by
  cases sc <;> decide

/-- One step of `splitSp` at a space: open a new empty segment. -/
theorem splitSp_cons_space (cs : List Char) :
    splitSp (' ' :: cs) = [] :: splitSp cs := by
  simp [splitSp]

/-- One step of `splitSp` at a non-space: extend the first segment. -/
theorem splitSp_cons_nospace (c : Char) (cs : List Char) (hc : c ≠ ' ') :
    splitSp (c :: cs) =
      match splitSp cs with
      | [] => [[c]]
      | t :: ts => (c :: t) :: ts := by
  simp [splitSp, hc]

/-- Splitting a space-free segment yields that single segment. -/
theorem splitSp_nospace (x : List Char) (h : ∀ c ∈ x, c ≠ ' ') :
    splitSp x = [x] := by
  induction x with
  | nil => rfl
  | cons c cs ih =>
    have hc : c ≠ ' ' := h c (List.mem_cons_self c cs)
    have ihcs := ih (fun d hd => h d (List.mem_cons_of_mem c hd))
    rw [splitSp_cons_nospace c cs hc, ihcs]

/-- Splitting a head segment followed by space-prefixed tail segments
recovers exactly the segments, provided no segment contains a space. -/
theorem splitSp_sepJoin (ts : List (List Char)) (x : List Char)
    (hx : ∀ c ∈ x, c ≠ ' ') (hts : ∀ t ∈ ts, ∀ c ∈ t, c ≠ ' ') :
    splitSp (x ++ sepJoin ts) = x :: ts := by
  induction ts generalizing x with
  | nil =>
    rw [sepJoin, List.append_nil]
    exact splitSp_nospace x hx
  | cons t ts ih =>
    induction x with
    | nil =>
      have htail := ih t (hts t (List.mem_cons_self t ts))
        (fun u hu => hts u (List.mem_cons_of_mem t hu))
      show splitSp (' ' :: (t ++ sepJoin ts)) = [] :: t :: ts
      rw [splitSp_cons_space, htail]
    | cons c cs ihx =>
      have hc : c ≠ ' ' := hx c (List.mem_cons_self c cs)
      have hcs := ihx (fun d hd => hx d (List.mem_cons_of_mem c hd))
      show splitSp (c :: (cs ++ sepJoin (t :: ts))) = (c :: cs) :: t :: ts
      rw [splitSp_cons_nospace _ _ hc, hcs]

/-- The character data of folding the `Display` accumulator over a scope
list: the accumulator followed by one space-prefixed URI per scope. -/
theorem foldl_toString_data (l : List SingleScopeId) (a : String) :
    (l.foldl (fun acc sc => acc ++ " " ++ sc.asStr) a).data =
      a.data ++ sepJoin (l.map fun sc => sc.asStr.data) := by
  induction l generalizing a with
  | nil => simp [sepJoin]
  | cons sc l ih =>
    rw [List.foldl_cons, ih]
    simp [String.data_append, sepJoin]

/-- The character data of the `Display` output of a nonempty scope vector. -/
theorem toString_data (f : SingleScopeId) (l : List SingleScopeId) :
    (spaceDelimitedToString (f :: l)).data =
      f.asStr.data ++ sepJoin (l.map fun sc => sc.asStr.data) := by
  simpa [spaceDelimitedToString] using foldl_toString_data l f.asStr

/-- Collecting the parses of catalog URIs recovers the scope list. -/
theorem collect_map_asStr (l : List SingleScopeId) :
    collectScopes (l.map fun sc => sc.asStr.data) = .ok l := by
  induction l with
  | nil => rfl
  | cons sc l ih =>
    have hsc : dynSingleScopeFromStr (String.mk sc.asStr.data) = .ok sc := by
      show dynSingleScopeFromStr sc.asStr = .ok sc
      simp [dynSingleScopeFromStr, catalogLookup_asStr]
    simp [collectScopes, hsc, ih]

/-- Serialize-then-parse recovers any nonempty scope vector exactly. -/
theorem roundtrip_ok (f : SingleScopeId) (l : List SingleScopeId) :
    spaceDelimitedFromStr (spaceDelimitedToString (f :: l)) = .ok (f :: l) := by
  have hx := asStr_nonempty_nospace f
  have hsplit := splitSp_sepJoin (l.map fun sc => sc.asStr.data) f.asStr.data
    hx.2 (by
      intro t ht c hc
      rcases List.mem_map.mp ht with ⟨sc, _, rfl⟩
      exact (asStr_nonempty_nospace sc).2 c hc)
  rw [spaceDelimitedFromStr, toString_data, hsplit]
  have := collect_map_asStr (f :: l)
  simpa [List.map] using this

/-- If every token is in the catalog, collection succeeds. -/
theorem collect_ok_of_all (ts : List (List Char))
    (h : ∀ t ∈ ts, (catalogLookup (String.mk t)).isSome) :
    ∃ l, collectScopes ts = .ok l := by
  induction ts with
  | nil => exact ⟨[], rfl⟩
  | cons t ts ih =>
    have ht := h t (List.mem_cons_self t ts)
    rcases Option.isSome_iff_exists.mp ht with ⟨sc, hsc⟩
    rcases ih (fun u hu => h u (List.mem_cons_of_mem t hu)) with ⟨l, hl⟩
    refine ⟨sc :: l, ?_⟩
    simp [collectScopes, dynSingleScopeFromStr, hsc, hl]

/-- If some token is outside the catalog, collection fails with the constant
message of `DynSingleScope::from_str`. -/
theorem collect_error_of_mem (ts : List (List Char)) (t : List Char)
    (ht : t ∈ ts) (h : catalogLookup (String.mk t) = none) :
    collectScopes ts = .error "no matching scope found" := by
  induction ts with
  | nil => cases ht
  | cons u ts ih =>
    rcases List.mem_cons.mp ht with rfl | hmem
    · simp [collectScopes, dynSingleScopeFromStr, h]
    · cases hu : catalogLookup (String.mk u) with
      | none => simp [collectScopes, dynSingleScopeFromStr, hu]
      | some sc => simp [collectScopes, dynSingleScopeFromStr, hu, ih hmem]

/-- C1: `calendar().calendar_list().list()` demands BOTH `calendar` and
`calendar.readonly` in the granted scope set (the `contain_scope!` macro
joins its scope list with `&&`): it fails with `InsufficientScopeError` on a
token granted only `calendar.readonly`, and also on one granted only
`calendar`; it succeeds only when both scopes are present. The claim's
"succeeds when either is present, fails only when neither is" does not hold
on the code. -/
theorem calendarList_list_requires_both_scopes :
    calendarListList [SingleScopeId.calendarReadonly] = .error {} ∧
    calendarListList [SingleScopeId.calendar] = .error {} ∧
    calendarListList [SingleScopeId.calendar, SingleScopeId.calendarReadonly] =
      .ok { parameters := ListParameters.new } := by
  refine ⟨?_, ?_, ?_⟩ <;> decide

/-- C2: when the refresh response carries no `refresh_token`, the merged
token inherits the previous token's `refresh_token` and takes every other
field from the response (merge rule modelled from the spec; `refresh()` has
no implementation under `src/`). -/
theorem refreshMerge_preserves_refresh_token (old resp : Token) (r : String)
    (h1 : old.refresh_token = some r) (h2 : resp.refresh_token = none) :
    refreshMerge old resp =
      { access_token := resp.access_token
        expires_in := resp.expires_in
        refresh_token := some r
        scope := resp.scope
        token_type := resp.token_type } := by
  simp [refreshMerge, h2, h1]

/-- Witness for C2 at concrete tokens: old token with `refresh_token "R1"`,
response without one. -/
theorem refreshMerge_preserves_refresh_token_witness :
    refreshMerge oldTok respTok =
      { access_token := "newAccess"
        expires_in := 3600
        refresh_token := some "R1"
        scope := [.calendarReadonly]
        token_type := () } :=
  refreshMerge_preserves_refresh_token oldTok respTok "R1" rfl rfl

/-- C3 counterexample: a granted-scope wire string containing a token
outside the catalog does NOT parse successfully — `SpaceDelimitedScope`
decoding rejects it with the unknown-scope error, so an unknown granted
scope is not preserved. -/
theorem tokenScope_parse_rejects_unknown_counterexample :
    spaceDelimitedFromStr
        "https://www.googleapis.com/auth/calendar unknown.scope" =
      .error "no matching scope found" := by
  decide

/-- C3 amended: decoding the granted scope field of a token response
succeeds exactly when every space-separated token is in the local catalog;
any unrecognized token makes the whole decode fail (strict policy, not
lenient preservation). -/
theorem tokenScope_parse_ok_iff_all_known (s : String) :
    exceptOk (spaceDelimitedFromStr s) =
      (splitSp s.data).all (fun t => (catalogLookup (String.mk t)).isSome) := by
  cases hall : (splitSp s.data).all (fun t => (catalogLookup (String.mk t)).isSome) with
  | true =>
    have h := List.all_eq_true.mp hall
    rcases collect_ok_of_all (splitSp s.data) (fun t ht => h t ht) with ⟨l, hl⟩
    simp [spaceDelimitedFromStr, hl, exceptOk]
  | false =>
    rcases List.all_eq_false.mp hall with ⟨t, ht, hnp⟩
    have hnone : catalogLookup (String.mk t) = none :=
      Option.not_isSome_iff_eq_none.mp (by simpa using hnp)
    have herr := collect_error_of_mem (splitSp s.data) t ht hnone
    simp [spaceDelimitedFromStr, herr, exceptOk]

/-- C4 counterexample: the generated URL does not contain the substring
`scope=https%3A%2F%2Fwww.googleapis.com%2Fauth%2Fcalendar` claimed by the
spec — `NON_ALPHANUMERIC` encoding also escapes the dots. -/
theorem generateUrl_dot_encoding_counterexample :
    strHasSub (generateUrl exSecretC4 exConfigC4)
      "scope=https%3A%2F%2Fwww.googleapis.com%2Fauth%2Fcalendar" = false := by
  decide

set_option maxRecDepth 4000 in
/-- C4 amended: `generate_url` is pure and returns exactly
`{auth_uri}?client_id=<enc>&redirect_uri=<enc>&scope=<enc>&response_type=code&access_type=offline`
with every character outside `[A-Za-z0-9]` percent-escaped — including `.`,
so the scope parameter for `{calendar}` reads
`https%3A%2F%2Fwww%2Egoogleapis%2Ecom%2Fauth%2Fcalendar` (dots encoded as
`%2E`); the other four claimed fragments appear as claimed. -/
theorem generateUrl_encoding_amended :
    (∀ (secret : WebClientSecret) (config : ClientConfig),
      generateUrl secret config =
        secret.auth_uri ++ "?" ++
          ("client_id=" ++ percentEncodeNA secret.client_id ++ "&" ++
           "redirect_uri=" ++ percentEncodeNA config.redirect_uri ++ "&" ++
           "scope=" ++ percentEncodeNA (spaceDelimitedToString config.scope) ++ "&" ++
           "response_type=code" ++ "&" ++ "access_type=offline")) ∧
    generateUrl exSecretC4 exConfigC4 =
      "https://oauth.example/auth?client_id=a%20b&redirect_uri=http%3A%2F%2Flocalhost%3A8080%2Fcb&scope=https%3A%2F%2Fwww%2Egoogleapis%2Ecom%2Fauth%2Fcalendar&response_type=code&access_type=offline" ∧
    strHasSub (generateUrl exSecretC4 exConfigC4) "client_id=a%20b" = true ∧
    strHasSub (generateUrl exSecretC4 exConfigC4)
      "redirect_uri=http%3A%2F%2Flocalhost%3A8080%2Fcb" = true ∧
    strHasSub (generateUrl exSecretC4 exConfigC4)
      "scope=https%3A%2F%2Fwww%2Egoogleapis%2Ecom%2Fauth%2Fcalendar" = true ∧
    strHasSub (generateUrl exSecretC4 exConfigC4) "response_type=code" = true ∧
    strHasSub (generateUrl exSecretC4 exConfigC4) "access_type=offline" = true := by
  refine ⟨fun secret config => rfl, by decide, by decide, by decide, by decide,
    by decide, by decide⟩

/-- C5 counterexample: an environment variable that is present but EMPTY
still replaces the field — `std::env::var(..).unwrap_or(..)` does not test
for emptiness, so the claim's "only when present and non-empty" fails. -/
theorem overrideFromEnv_empty_value_counterexample :
    envEmptyC5 "OVERRIDE_CLIENT_ID" = some "" ∧
    (overrideFromEnv envEmptyC5 none exSecretC5).client_id ≠
      exSecretC5.client_id := by
  decide

/-- C5 amended: a field is replaced whenever `OVERRIDE_{INFIX_}FIELD` is
present in the environment (even with an empty value) and kept otherwise;
with only `OVERRIDE_CLIENT_ID` set and no infix, the result replaces
`client_id` with the variable's value and leaves the other five fields
untouched. -/
theorem overrideFromEnv_client_id_only (env : String → Option String)
    (w : WebClientSecret) (v : String)
    (h1 : env "OVERRIDE_CLIENT_ID" = some v)
    (h2 : env "OVERRIDE_PROJECT_ID" = none)
    (h3 : env "OVERRIDE_AUTH_URI" = none)
    (h4 : env "OVERRIDE_TOKEN_URI" = none)
    (h5 : env "OVERRIDE_AUTH_PROVIDER_X509_CERT_URL" = none)
    (h6 : env "OVERRIDE_CLIENT_SECRET" = none) :
    overrideFromEnv env none w = { w with client_id := v } := by
  have e1 : envVarName none "CLIENT_ID" = "OVERRIDE_CLIENT_ID" := rfl
  have e2 : envVarName none "PROJECT_ID" = "OVERRIDE_PROJECT_ID" := rfl
  have e3 : envVarName none "AUTH_URI" = "OVERRIDE_AUTH_URI" := rfl
  have e4 : envVarName none "TOKEN_URI" = "OVERRIDE_TOKEN_URI" := rfl
  have e5 : envVarName none "AUTH_PROVIDER_X509_CERT_URL" =
      "OVERRIDE_AUTH_PROVIDER_X509_CERT_URL" := rfl
  have e6 : envVarName none "CLIENT_SECRET" = "OVERRIDE_CLIENT_SECRET" := rfl
  simp [overrideFromEnv, e1, e2, e3, e4, e5, e6, h1, h2, h3, h4, h5, h6]

/-- Witness for C5: only `OVERRIDE_CLIENT_ID=xyz` set, concrete secret. -/
theorem overrideFromEnv_client_id_only_witness :
    overrideFromEnv envXyzC5 none exSecretC5 =
      { exSecretC5 with client_id := "xyz" } :=
  overrideFromEnv_client_id_only envXyzC5 exSecretC5 "xyz"
    (by decide) (by decide) (by decide) (by decide) (by decide) (by decide)

/-- C6: for every nonempty scope vector, parsing the serialized wire string
recovers a vector with the same scope set (here: exactly the same vector,
hence the same `scope()` set). -/
theorem wire_roundtrip_nonempty (f : SingleScopeId) (l : List SingleScopeId) :
    (spaceDelimitedFromStr (spaceDelimitedToString (f :: l))).map
        (fun l2 => scopeOf (.spaceDelimited l2)) =
      .ok (scopeOf (.spaceDelimited (f :: l))) := by
  rw [roundtrip_ok]
  rfl

/-- C7 counterexample: parsing `"calendar bogus.scope"` fails, but with the
constant error `"no matching scope found"`, which does not identify
`"bogus.scope"` (indeed the first failing token is `"calendar"`, since the
catalog keys are full URIs). -/
theorem parse_error_constant_counterexample :
    spaceDelimitedFromStr "calendar bogus.scope" =
      .error "no matching scope found" ∧
    spaceDelimitedFromStr "calendar" = .error "no matching scope found" ∧
    strHasSub "no matching scope found" "bogus.scope" = false := by
  refine ⟨by decide, by decide, by decide⟩

/-- C7 amended: parsing splits on single spaces and fails — with the
constant, token-free error message `"no matching scope found"` — exactly
when some token is not a catalog URI; `"calendar bogus.scope"` fails (its
first token `"calendar"` is already unknown, as catalog keys are the full
`https://...` URIs). -/
theorem parse_first_unknown_amended :
    (∀ s : String,
      spaceDelimitedFromStr s = .error "no matching scope found" ↔
        ∃ t ∈ splitSp s.data, catalogLookup (String.mk t) = none) ∧
    spaceDelimitedFromStr "calendar bogus.scope" =
      .error "no matching scope found" := by
  constructor
  · intro s
    constructor
    · intro herr
      by_contra hno
      push_neg at hno
      have hall : ∀ t ∈ splitSp s.data, (catalogLookup (String.mk t)).isSome :=
        fun t ht => Option.isSome_iff_ne_none.mpr (hno t ht)
      rcases collect_ok_of_all (splitSp s.data) hall with ⟨l, hl⟩
      rw [spaceDelimitedFromStr, hl] at herr
      cases herr
    · rintro ⟨t, ht, hnone⟩
      rw [spaceDelimitedFromStr]
      exact collect_error_of_mem (splitSp s.data) t ht hnone
  · decide

/-- C8: scope union (`Scope::with`) is commutative and idempotent at the
level of the represented scope set. -/
theorem scope_union_comm_idem (A B : ScopeVal) :
    scopeOf (.withScope A B) = scopeOf (.withScope B A) ∧
    scopeOf (.withScope A A) = scopeOf A := by
  refine ⟨?_, ?_⟩ <;> simp [scopeOf, Finset.union_comm]

/-- C9 counterexample: `union(A, A)` for `A = calendar` serializes the
scope TWICE — `With::space_delimited` concatenates the operands' vectors
without deduplication — contradicting "no scope appearing more than once,
including in its space-delimited serialized form". -/
theorem union_self_duplicates_counterexample :
    (spaceDelimitedOf
        (.withScope (.dynSingle .calendar) (.dynSingle .calendar))).count
      SingleScopeId.calendar = 2 ∧
    spaceDelimitedToString
        (spaceDelimitedOf
          (.withScope (.dynSingle .calendar) (.dynSingle .calendar))) =
      "https://www.googleapis.com/auth/calendar https://www.googleapis.com/auth/calendar" := by
  refine ⟨by decide, by decide⟩

/-- C9 amended: at the `scope()` set level the union is exact — the scopes
of `A` together with those of `B`, with set semantics excluding duplicates —
but the space-delimited serialization of a union concatenates the operands'
serializations without deduplication, so `union(A, A)` serializes every
scope occurrence of `A` twice. -/
theorem union_scope_exact_spaceDelimited_concat (A B : ScopeVal) :
    scopeOf (.withScope A B) = scopeOf A ∪ scopeOf B ∧
    spaceDelimitedOf (.withScope A B) =
      spaceDelimitedOf A ++ spaceDelimitedOf B ∧
    ∀ x : SingleScopeId,
      (spaceDelimitedOf (.withScope A A)).count x =
        2 * (spaceDelimitedOf A).count x := by
  refine ⟨rfl, rfl, ?_⟩
  intro x
  simp [spaceDelimitedOf, List.count_append, two_mul]

/-- C10: serializing the empty scope set gives the empty string, but parsing
the empty string fails (the single empty token is not in the catalog), so
the serialize-then-parse round trip fails exactly for the empty set: it
errors on the empty set and succeeds on every nonempty one. -/
theorem empty_roundtrip_fails_exactly :
    spaceDelimitedToString ([] : List SingleScopeId) = "" ∧
    spaceDelimitedFromStr "" = .error "no matching scope found" ∧
    spaceDelimitedFromStr (spaceDelimitedToString ([] : List SingleScopeId)) =
      .error "no matching scope found" ∧
    ∀ (f : SingleScopeId) (l : List SingleScopeId),
      exceptOk (spaceDelimitedFromStr (spaceDelimitedToString (f :: l))) = true := by
  refine ⟨rfl, by decide, by decide, ?_⟩
  intro f l
  rw [roundtrip_ok]
  rfl

end GoogleOAuth
